import Mathlib

/-!
# Tournament Scheduling & Standings Engine — verification

Shallow embedding of the engine logic of `src/src/App.js`:
group partitioning (`handleGenerateGroups`), round-robin schedule
generation (`handleGenerateMatches`), ad-hoc fixture creation
(`handleSaveManualMatch`), and standings recomputation
(`handleRecalculateStandings`).

JS numbers that hold integer set counts are modelled as `Int`
(`parseInt` results may be negative); `null` scores are `Option.none`,
and arithmetic on a `null` score follows the JS coercion `x + null = x`
via `Option.getD 0`.  `Array.prototype.sort` is stable with a consistent
comparator (ES2019), so it is embedded as `List.mergeSort` over the
boolean relation `comparator result ≤ 0`.
-/

namespace PingPong

/-- `{id, name}` as supplied by the participant registry. -/
structure Participant where
  id : String
  name : String
deriving DecidableEq, Repr

/-- A group: label plus the ordered participant ids pushed into it. -/
structure Group where
  name : String
  participantIds : List String
deriving DecidableEq, Repr

/-- `status` field of a match document: `'pending'` or `'completed'`. -/
inductive MatchStatus where
  | pending
  | completed
deriving DecidableEq, Repr

/-- A match document as written by `handleGenerateMatches` /
`handleSaveManualMatch` and completed by `handleSaveScore`.
Scores are `none` until a result is recorded. -/
structure Match where
  stage : String
  groupName : String
  homeParticipantId : String
  awayParticipantId : String
  homeParticipantName : String
  awayParticipantName : String
  homeSets : Option Int
  awaySets : Option Int
  status : MatchStatus
deriving DecidableEq, Repr

/-- One row of a standings table (`handleRecalculateStandings`, l.507-511). -/
structure StandingsRow where
  participantId : String
  played : Int
  wins : Int
  losses : Int
  setsFor : Int
  setsAgainst : Int
  setDifference : Int
  points : Int
deriving DecidableEq, Repr

/-- An entry of `championship.standings`: a group name with its table. -/
structure GroupStandings where
  groupName : String
  table : List StandingsRow
deriving DecidableEq, Repr

/-- The slice of a championship document the engine reads and writes. -/
structure Championship where
  groups : List Group
  standings : List GroupStandings
deriving Repr

/-- Error kinds of §7 of the spec. -/
inductive EngineError where
  | invalidConfiguration
  | invalidParticipants
deriving DecidableEq, Repr

/-- The all-zero row created for each participant id (l.507-511). -/
def initRow (participantId : String) : StandingsRow :=
  { participantId := participantId, played := 0, wins := 0, losses := 0,
    setsFor := 0, setsAgainst := 0, setDifference := 0, points := 0 }

/-- `standings.find(pred)` followed by in-place mutation of the found
object: rewrite the first element satisfying `p`, leave the rest. -/
def updateFirst {α : Type} (p : α → Bool) (f : α → α) : List α → List α
  | [] => []
  | x :: xs => if p x then f x :: xs else x :: updateFirst p f xs

/-- Mutation of the home row for one completed match (l.519-530). -/
def homeUpdate (m : Match) (r : StandingsRow) : StandingsRow :=
  let r1 := { r with played := r.played + 1,
                     setsFor := r.setsFor + m.homeSets.getD 0,
                     setsAgainst := r.setsAgainst + m.awaySets.getD 0 }
  if m.homeSets.getD 0 > m.awaySets.getD 0 then
    { r1 with wins := r1.wins + 1, points := r1.points + 2 }
  else
    { r1 with losses := r1.losses + 1, points := r1.points + 1 }

/-- Mutation of the away row for one completed match (l.531-542). -/
def awayUpdate (m : Match) (r : StandingsRow) : StandingsRow :=
  let r1 := { r with played := r.played + 1,
                     setsFor := r.setsFor + m.awaySets.getD 0,
                     setsAgainst := r.setsAgainst + m.homeSets.getD 0 }
  if m.awaySets.getD 0 > m.homeSets.getD 0 then
    { r1 with wins := r1.wins + 1, points := r1.points + 2 }
  else
    { r1 with losses := r1.losses + 1, points := r1.points + 1 }

/-- The body of `groupMatches.forEach(match => ...)` (l.515-543): update
the home row if present, then the away row if present. -/
def applyMatch (rows : List StandingsRow) (m : Match) : List StandingsRow :=
  updateFirst (fun s => s.participantId == m.awayParticipantId) (awayUpdate m)
    (updateFirst (fun s => s.participantId == m.homeParticipantId) (homeUpdate m) rows)

/-- The sort comparator of l.549-554, returning the JS comparator's sign
carrier: negative when `a` must precede `b`. -/
def standingsCmp (a b : StandingsRow) : Int :=
  if a.points ≠ b.points then b.points - a.points
  else if a.setDifference ≠ b.setDifference then b.setDifference - a.setDifference
  else if a.setsFor ≠ b.setsFor then b.setsFor - a.setsFor
  else 0

/-- `a` may precede `b` in the sorted table: comparator value `≤ 0`. -/
def standingsLe (a b : StandingsRow) : Bool :=
  standingsCmp a b ≤ 0

/-- The table as it stands just before the sort (l.507-547): init rows
in membership order, fold the completed fixtures of the group, set
`setDifference` on every row. -/
def rawTable (group : Group) (fixtures : List Match) : List StandingsRow :=
  let standings := group.participantIds.map initRow
  let groupMatches :=
    fixtures.filter (fun m => m.groupName == group.name && m.status == MatchStatus.completed)
  let folded := groupMatches.foldl applyMatch standings
  folded.map (fun s => { s with setDifference := s.setsFor - s.setsAgainst })

/-- `handleRecalculateStandings` without the upsert (l.507-554): the raw
table, stable-sorted by the comparator. -/
def computeTable (group : Group) (fixtures : List Match) : List StandingsRow :=
  (rawTable group fixtures).mergeSort standingsLe

/-- The standings upsert of l.556-557: drop entries for `groupName`,
append the fresh entry. -/
def upsertStandings (prior : List GroupStandings) (groupName : String)
    (table : List StandingsRow) : List GroupStandings :=
  prior.filter (fun s => s.groupName != groupName) ++ [{ groupName := groupName, table := table }]

/-- `handleRecalculateStandings` (l.503-559): look up the group by name
(`none` models the early `return` when it is absent), recompute its
table and upsert it into the standings collection. -/
def recalculateStandings (champ : Championship) (fixtures : List Match)
    (groupName : String) : Option (List GroupStandings) :=
  (champ.groups.find? (fun g => g.name == groupName)).map
    (fun group => upsertStandings champ.standings groupName (computeTable group fixtures))

/-- `participantMap.get(pid)?.name || '?'`: display name with the JS
falsy fallback (absent participant, or empty name, gives `"?"`). -/
def lookupName (participants : List Participant) (pid : String) : String :=
  match participants.find? (fun p => p.id == pid) with
  | none => "?"
  | some p => if p.name = "" then "?" else p.name

/-- `matchFormat` configuration value. -/
inductive MatchFormat where
  | single
  | home_and_away
deriving DecidableEq, Repr

/-- The `matchBase` object of `handleGenerateMatches` (l.625-635). -/
def matchBase (participants : List Participant) (gname homeId awayId : String) : Match :=
  { stage := "group", groupName := gname,
    homeParticipantId := homeId, awayParticipantId := awayId,
    homeParticipantName := lookupName participants homeId,
    awayParticipantName := lookupName participants awayId,
    homeSets := none, awaySets := none, status := MatchStatus.pending }

/-- The documents written for one `(i, j)` pair (l.637-649): the base
fixture, followed immediately by its mirror when `home_and_away`. -/
def pairFixtures (participants : List Participant) (gname : String)
    (format : MatchFormat) (homeId awayId : String) : List Match :=
  let base := matchBase participants gname homeId awayId
  if format = MatchFormat.home_and_away then
    [base,
     { base with homeParticipantId := awayId, awayParticipantId := homeId,
                 homeParticipantName := lookupName participants awayId,
                 awayParticipantName := lookupName participants homeId }]
  else [base]

/-- The index pairs `(ids[i], ids[j])`, `i < j`, in loop order
(l.620-623): for each head element, pair it with everything after it. -/
def schedulePairs {α : Type} : List α → List (α × α)
  | [] => []
  | x :: rest => rest.map (fun y => (x, y)) ++ schedulePairs rest

/-- `handleGenerateMatches` restricted to one group (l.619-652). -/
def generateFixtures (participants : List Participant) (group : Group)
    (format : MatchFormat) : List Match :=
  (schedulePairs group.participantIds).flatMap
    (fun pr => pairFixtures participants group.name format pr.1 pr.2)

/-- `handleSaveManualMatch` (l.675-695): reject an empty selection or
equal ids, else create the single pending ad-hoc fixture. -/
def createAdHocFixture (participants : List Participant)
    (homeId awayId : String) : Except EngineError Match :=
  if homeId = "" || awayId = "" || homeId = awayId then
    Except.error EngineError.invalidParticipants
  else
    Except.ok
      { stage := "group", groupName := "Avulso",
        homeParticipantId := homeId, awayParticipantId := awayId,
        homeParticipantName := lookupName participants homeId,
        awayParticipantName := lookupName participants awayId,
        homeSets := none, awaySets := none, status := MatchStatus.pending }

/-- `newGroups[k].participantIds.push(x)` (l.601): append `x` to the
`k`-th bucket. -/
def pushIdx {α : Type} (gs : List (List α)) (k : Nat) (x : α) : List (List α) :=
  gs.set k (gs.getD k [] ++ [x])

/-- The `forEach((p, index) => ...)` of l.600-602, with `i` the running
index: push each element into bucket `i % g`. -/
def distribAux {α : Type} (g : Nat) : List (List α) → Nat → List α → List (List α)
  | gs, _, [] => gs
  | gs, i, x :: xs => distribAux g (pushIdx gs (i % g) x) (i + 1) xs

/-- Striped distribution of a (shuffled) list over `g` initially empty
buckets (l.595-602). -/
def distribute {α : Type} (ps : List α) (g : Nat) : List (List α) :=
  distribAux g (List.replicate g []) 0 ps

/-- Group label `"Grupo " + String.fromCharCode(65 + i)` (l.596). -/
def groupLabel (i : Nat) : String :=
  "Grupo " ++ String.singleton (Char.ofNat (65 + i))

/-- `handleGenerateGroups` (l.587-613) minus the shuffle: takes the
already-permuted participant list (the shuffle preserves length, so the
guard reads the same length), and either rejects the configuration or
builds the striped groups.  `Except.error` models the early `return`
that leaves all state unchanged. -/
def generateGroups (shuffled : List Participant) (numGroups : Nat) :
    Except EngineError (List Group) :=
  if shuffled.length < 2 || numGroups < 1 then
    Except.error EngineError.invalidConfiguration
  else
    let idLists := distribute (shuffled.map (fun p => p.id)) numGroups
    Except.ok ((List.range numGroups).map
      (fun i => { name := groupLabel i, participantIds := idLists.getD i [] }))

/-- Number of representable `Math.random()` outcomes: the 53-bit
dyadics of `[0, 1)`, each of probability `2 ^ (-53)`. -/
def mathRandomValues : Nat := 2 ^ 53

/-- Modelled from code l.593, `[...participants].sort(() => 0.5 - Math.random())`:
the sort algorithm of the host engine is not part of the source, so the
shuffle is modelled as an arbitrary deterministic procedure that consumes
`k` draws of `Math.random` (each uniform over the `2 ^ 53` representable
values) and returns the resulting ordering of three distinct
participants, encoded as one of the `6` permutations. -/
def shuffleProcedure (k : Nat) : Type :=
  (Fin k → Fin mathRandomValues) → Fin 6

/-- The shuffle is uniform: every permutation is reached by equally many
of the equiprobable random-draw sequences. -/
def isUniformShuffle3 (k : Nat) (algo : shuffleProcedure k) : Prop :=
  ∀ s t : Fin 6,
    (Finset.univ.filter (fun x => algo x = s)).card =
      (Finset.univ.filter (fun x => algo x = t)).card

/-- The mirrored fixture of l.642-648: the same document with home and
away (ids and names) swapped. -/
def mirrorFixture (f : Match) : Match :=
  { f with homeParticipantId := f.awayParticipantId,
           awayParticipantId := f.homeParticipantId,
           homeParticipantName := f.awayParticipantName,
           awayParticipantName := f.homeParticipantName }

/-- Transcribed from the spec's words (§4.3): the row update for one
completed fixture, `sf` the participant's own sets, `sa` the
opponent's: `played += 1`, `setsFor += sf`, `setsAgainst += sa`; if
`sf > sa` then `wins += 1, points += 2` else `losses += 1, points += 1`. -/
def specRowUpdate (sf sa : Int) (r : StandingsRow) : StandingsRow :=
  let r1 := { r with played := r.played + 1,
                     setsFor := r.setsFor + sf,
                     setsAgainst := r.setsAgainst + sa }
  if sf > sa then
    { r1 with wins := r1.wins + 1, points := r1.points + 2 }
  else
    { r1 with losses := r1.losses + 1, points := r1.points + 1 }

/-- Transcribed from the spec's words: update the home row with the home
sets first, then the away row with the scores swapped. -/
def specApplyFixture (rows : List StandingsRow) (m : Match) : List StandingsRow :=
  updateFirst (fun s => s.participantId == m.awayParticipantId)
    (specRowUpdate (m.awaySets.getD 0) (m.homeSets.getD 0))
    (updateFirst (fun s => s.participantId == m.homeParticipantId)
      (specRowUpdate (m.homeSets.getD 0) (m.awaySets.getD 0)) rows)

/-- Transcribed from the spec's ranking clause: `a` may precede `b` in a
table ordered descending by `points`, then `setDifference`, then
`setsFor`. -/
def specDescLex (a b : StandingsRow) : Prop :=
  b.points < a.points ∨
    (b.points = a.points ∧
      (b.setDifference < a.setDifference ∨
        (b.setDifference = a.setDifference ∧
          (b.setsFor < a.setsFor ∨ b.setsFor = a.setsFor))))

/-- Two rows tied on all three ranking keys. -/
def sameRankKeys (a b : StandingsRow) : Prop :=
  a.points = b.points ∧ a.setDifference = b.setDifference ∧ a.setsFor = b.setsFor

/-! ## Helper lemmas -/

theorem updateFirst_of_forall_not {α : Type} (p : α → Bool) (f : α → α) (l : List α)
    (h : ∀ x ∈ l, p x = false) : updateFirst p f l = l := by
  induction l with
  | nil => rfl
  | cons x xs ih =>
      simp only [updateFirst, h x (List.mem_cons_self x xs), Bool.false_eq_true, if_false,
        List.cons.injEq, true_and]
      exact ih fun y hy => h y (List.mem_cons_of_mem x hy)

theorem map_updateFirst {α β : Type} (g : α → β) (p : α → Bool) (f : α → α) (l : List α)
    (h : ∀ x, g (f x) = g x) : (updateFirst p f l).map g = l.map g := by
  induction l with
  | nil => rfl
  | cons x xs ih =>
      by_cases hp : p x
      · simp [updateFirst, hp, h x]
      · simp [updateFirst, hp, ih]

theorem forall_mem_updateFirst {α : Type} (P : α → Prop) (p : α → Bool) (f : α → α)
    (l : List α) (h1 : ∀ x ∈ l, P x) (h2 : ∀ x, P x → P (f x)) :
    ∀ x ∈ updateFirst p f l, P x := by
  induction l with
  | nil => simp [updateFirst]
  | cons x xs ih =>
      by_cases hp : p x
      · simp only [updateFirst, hp, if_true]
        intro y hy
        rcases List.mem_cons.mp hy with h | h
        · exact h ▸ h2 x (h1 x (List.mem_cons_self x xs))
        · exact h1 y (List.mem_cons_of_mem x h)
      · simp only [updateFirst, hp, Bool.false_eq_true, if_false]
        intro y hy
        rcases List.mem_cons.mp hy with h | h
        · exact h ▸ h1 x (List.mem_cons_self x xs)
        · exact ih (fun z hz => h1 z (List.mem_cons_of_mem x hz)) y h

theorem homeUpdate_participantId (m : Match) (r : StandingsRow) :
    (homeUpdate m r).participantId = r.participantId := by
  unfold homeUpdate
  split <;> rfl

theorem awayUpdate_participantId (m : Match) (r : StandingsRow) :
    (awayUpdate m r).participantId = r.participantId := by
  unfold awayUpdate
  split <;> rfl

theorem applyMatch_map_participantId (rows : List StandingsRow) (m : Match) :
    (applyMatch rows m).map (fun r => r.participantId) = rows.map (fun r => r.participantId) := by
  unfold applyMatch
  rw [map_updateFirst _ _ _ _ (awayUpdate_participantId m),
      map_updateFirst _ _ _ _ (homeUpdate_participantId m)]

theorem foldl_applyMatch_map_participantId (ms : List Match) (rows : List StandingsRow) :
    (ms.foldl applyMatch rows).map (fun r => r.participantId) =
      rows.map (fun r => r.participantId) := by
  induction ms generalizing rows with
  | nil => rfl
  | cons m ms ih => rw [List.foldl_cons, ih, applyMatch_map_participantId]

theorem rawTable_map_participantId (group : Group) (fixtures : List Match) :
    (rawTable group fixtures).map (fun r => r.participantId) = group.participantIds := by
  unfold rawTable
  rw [List.map_map]
  rw [show ((fun r : StandingsRow => r.participantId) ∘
        (fun s : StandingsRow => { s with setDifference := s.setsFor - s.setsAgainst })) =
      (fun r : StandingsRow => r.participantId) from rfl]
  rw [foldl_applyMatch_map_participantId, List.map_map]
  simp only [show ((fun r : StandingsRow => r.participantId) ∘ initRow) = fun pid => pid from rfl,
    List.map_id_fun', id_eq]

/-! ## C7: partition configuration guard -/

/-- C7: `handleGenerateGroups` rejects the configuration exactly when
`numGroups < 1` or fewer than 2 participants are supplied; the error
models the early `return` that produces no groups and leaves the
existing state unchanged. -/
theorem partition_invalid_configuration (shuffled : List Participant) (numGroups : Nat) :
    generateGroups shuffled numGroups = Except.error EngineError.invalidConfiguration ↔
      (numGroups < 1 ∨ shuffled.length < 2) := by
  unfold generateGroups
  by_cases h : shuffled.length < 2 ∨ numGroups < 1
  · rw [if_pos (by simp only [Bool.or_eq_true, decide_eq_true_eq]; tauto)]
    exact iff_of_true rfl (by tauto)
  · rw [if_neg (by simp only [Bool.or_eq_true, decide_eq_true_eq]; tauto)]
    exact iff_of_false (by simp) (by tauto)

/-! ## C6: ad-hoc fixture validation -/

/-- C6 counterexample: the code accepts an id that is not a known
participant ("x" is not in the registry), while the claim demands
`InvalidParticipants`. -/
theorem adhoc_unknown_id_counterexample :
    (createAdHocFixture [{ id := "a", name := "Ann" }, { id := "b", name := "Bo" }] "x" "b").isOk
      = true ∧
    ("x" ∈ ([{ id := "a", name := "Ann" }, { id := "b", name := "Bo" }] : List Participant).map
        (fun p => p.id)) = False := by
  constructor
  · rfl
  · simp

/-- C6 (amended): creating an ad-hoc fixture fails with
`InvalidParticipants` exactly when either id is unset (empty selection)
or both sides reference the same participant — known-participant
membership is not checked; otherwise it creates a single pending fixture
with the ad-hoc sentinel group name `"Avulso"` and unset scores. -/
theorem adhoc_fixture_amended (participants : List Participant) (homeId awayId : String) :
    (createAdHocFixture participants homeId awayId = Except.error EngineError.invalidParticipants ↔
      (homeId = "" ∨ awayId = "" ∨ homeId = awayId)) ∧
    (∀ f, createAdHocFixture participants homeId awayId = Except.ok f →
      f.groupName = "Avulso" ∧ f.status = MatchStatus.pending ∧
      f.homeSets = none ∧ f.awaySets = none ∧
      f.homeParticipantId = homeId ∧ f.awayParticipantId = awayId) := by
  unfold createAdHocFixture
  by_cases h : homeId = "" ∨ awayId = "" ∨ homeId = awayId
  · rw [if_pos (by simp only [Bool.or_eq_true, decide_eq_true_eq]; tauto)]
    refine ⟨by simp only [true_iff]; tauto, ?_⟩
    intro f hf
    exact absurd hf (by simp)
  · rw [if_neg (by simp only [Bool.or_eq_true, decide_eq_true_eq]; tauto)]
    refine ⟨by simp only [reduceCtorEq, false_iff]; tauto, ?_⟩
    intro f hf
    cases hf
    exact ⟨rfl, rfl, rfl, rfl, rfl, rfl⟩

/-- Witness for the amended C6 theorem at a concrete accepted input. -/
theorem adhoc_fixture_amended_witness :
    ({ stage := "group", groupName := "Avulso", homeParticipantId := "h",
       awayParticipantId := "a", homeParticipantName := "?", awayParticipantName := "?",
       homeSets := none, awaySets := none, status := MatchStatus.pending } : Match).groupName
        = "Avulso" ∧
    ({ stage := "group", groupName := "Avulso", homeParticipantId := "h",
       awayParticipantId := "a", homeParticipantName := "?", awayParticipantName := "?",
       homeSets := none, awaySets := none, status := MatchStatus.pending } : Match).status
        = MatchStatus.pending ∧
    ({ stage := "group", groupName := "Avulso", homeParticipantId := "h",
       awayParticipantId := "a", homeParticipantName := "?", awayParticipantName := "?",
       homeSets := none, awaySets := none, status := MatchStatus.pending } : Match).homeSets
        = none ∧
    ({ stage := "group", groupName := "Avulso", homeParticipantId := "h",
       awayParticipantId := "a", homeParticipantName := "?", awayParticipantName := "?",
       homeSets := none, awaySets := none, status := MatchStatus.pending } : Match).awaySets
        = none ∧
    ({ stage := "group", groupName := "Avulso", homeParticipantId := "h",
       awayParticipantId := "a", homeParticipantName := "?", awayParticipantName := "?",
       homeSets := none, awaySets := none, status := MatchStatus.pending } : Match).homeParticipantId
        = "h" ∧
    ({ stage := "group", groupName := "Avulso", homeParticipantId := "h",
       awayParticipantId := "a", homeParticipantName := "?", awayParticipantName := "?",
       homeSets := none, awaySets := none, status := MatchStatus.pending } : Match).awayParticipantId
        = "a" :=
  (adhoc_fixture_amended [] "h" "a").2 _ rfl

/-! ## C1: the standings fold -/

theorem homeUpdate_eq_spec (m : Match) :
    homeUpdate m = specRowUpdate (m.homeSets.getD 0) (m.awaySets.getD 0) := rfl

theorem awayUpdate_eq_spec (m : Match) :
    awayUpdate m = specRowUpdate (m.awaySets.getD 0) (m.homeSets.getD 0) := rfl

theorem applyMatch_eq_spec : applyMatch = specApplyFixture := by
  funext rows m
  unfold applyMatch specApplyFixture
  rw [homeUpdate_eq_spec, awayUpdate_eq_spec]

/-- C1: the recomputation folds exactly over the fixtures whose
`groupName` equals the group's name and whose status is completed,
applying to each side the spec-transcribed update (home row gains
`played + 1`, `setsFor + homeSets`, `setsAgainst + awaySets`, and a
win/2 points when `homeSets > awaySets`, else a loss/1 point — so a tie
is a loss with 1 point for both sides; the away row symmetrically with
the scores swapped), and after the fold every row of the result
satisfies `setDifference = setsFor - setsAgainst`. -/
theorem recompute_fold_spec (group : Group) (fixtures : List Match) :
    computeTable group fixtures =
      (((fixtures.filter
            (fun m => m.groupName == group.name && m.status == MatchStatus.completed)).foldl
          specApplyFixture (group.participantIds.map initRow)).map
        (fun s => { s with setDifference := s.setsFor - s.setsAgainst })).mergeSort standingsLe ∧
    ∀ r ∈ computeTable group fixtures, r.setDifference = r.setsFor - r.setsAgainst := by
  constructor
  · unfold computeTable rawTable
    rw [applyMatch_eq_spec]
  · intro r hr
    unfold computeTable rawTable at hr
    rw [List.mem_mergeSort] at hr
    obtain ⟨s, _, rfl⟩ := List.mem_map.mp hr
    rfl

/-- Witness for C1 on a one-participant group with no fixtures. -/
theorem recompute_fold_spec_witness :
    (initRow "A").setDifference = (initRow "A").setsFor - (initRow "A").setsAgainst :=
  (recompute_fold_spec { name := "G", participantIds := ["A"] } []).2 (initRow "A")
    (by unfold computeTable; exact List.mem_mergeSort.mpr (by decide))

/-! ## C9: row counting identities -/

theorem homeUpdate_counting (m : Match) (r : StandingsRow)
    (h : r.played = r.wins + r.losses ∧ r.points = 2 * r.wins + r.losses) :
    (homeUpdate m r).played = (homeUpdate m r).wins + (homeUpdate m r).losses ∧
    (homeUpdate m r).points = 2 * (homeUpdate m r).wins + (homeUpdate m r).losses := by
  unfold homeUpdate
  split <;> simp only [] <;> obtain ⟨h1, h2⟩ := h <;> constructor <;> omega

theorem awayUpdate_counting (m : Match) (r : StandingsRow)
    (h : r.played = r.wins + r.losses ∧ r.points = 2 * r.wins + r.losses) :
    (awayUpdate m r).played = (awayUpdate m r).wins + (awayUpdate m r).losses ∧
    (awayUpdate m r).points = 2 * (awayUpdate m r).wins + (awayUpdate m r).losses := by
  unfold awayUpdate
  split <;> simp only [] <;> obtain ⟨h1, h2⟩ := h <;> constructor <;> omega

theorem foldl_applyMatch_counting (ms : List Match) (rows : List StandingsRow)
    (h : ∀ r ∈ rows, r.played = r.wins + r.losses ∧ r.points = 2 * r.wins + r.losses) :
    ∀ r ∈ ms.foldl applyMatch rows,
      r.played = r.wins + r.losses ∧ r.points = 2 * r.wins + r.losses := by
  induction ms generalizing rows with
  | nil => exact h
  | cons m ms ih =>
      rw [List.foldl_cons]
      refine ih (applyMatch rows m) ?_
      unfold applyMatch
      exact forall_mem_updateFirst _ _ _ _
        (forall_mem_updateFirst _ _ _ _ h (homeUpdate_counting m))
        (awayUpdate_counting m)

/-- C9: every row of a recomputed table satisfies
`played = wins + losses` and `points = 2 * wins + losses`, for arbitrary
fixture inputs (tied set scores included: a tie adds a loss and 1 point
to both sides, preserving both identities). -/
theorem standings_row_counting (group : Group) (fixtures : List Match) :
    ∀ r ∈ computeTable group fixtures,
      r.played = r.wins + r.losses ∧ r.points = 2 * r.wins + r.losses := by
  intro r hr
  unfold computeTable rawTable at hr
  rw [List.mem_mergeSort] at hr
  obtain ⟨s, hs, rfl⟩ := List.mem_map.mp hr
  have := foldl_applyMatch_counting _ _ (fun r hr => by
    obtain ⟨pid, _, rfl⟩ := List.mem_map.mp hr
    exact ⟨rfl, rfl⟩) s hs
  exact this

/-- Witness for C9: a completed tied fixture (2:2) gives the home side a
loss and one point, and the counting identities hold on its row. -/
theorem standings_row_counting_witness :
    ({ participantId := "A", played := 1, wins := 0, losses := 1, setsFor := 2,
       setsAgainst := 2, setDifference := 0, points := 1 } : StandingsRow).played =
      ({ participantId := "A", played := 1, wins := 0, losses := 1, setsFor := 2,
         setsAgainst := 2, setDifference := 0, points := 1 } : StandingsRow).wins +
      ({ participantId := "A", played := 1, wins := 0, losses := 1, setsFor := 2,
         setsAgainst := 2, setDifference := 0, points := 1 } : StandingsRow).losses ∧
    ({ participantId := "A", played := 1, wins := 0, losses := 1, setsFor := 2,
       setsAgainst := 2, setDifference := 0, points := 1 } : StandingsRow).points =
      2 * ({ participantId := "A", played := 1, wins := 0, losses := 1, setsFor := 2,
             setsAgainst := 2, setDifference := 0, points := 1 } : StandingsRow).wins +
      ({ participantId := "A", played := 1, wins := 0, losses := 1, setsFor := 2,
         setsAgainst := 2, setDifference := 0, points := 1 } : StandingsRow).losses :=
  standings_row_counting { name := "G", participantIds := ["A", "B"] }
    [{ stage := "group", groupName := "G", homeParticipantId := "A",
       awayParticipantId := "B", homeParticipantName := "A", awayParticipantName := "B",
       homeSets := some 2, awaySets := some 2, status := MatchStatus.completed }]
    { participantId := "A", played := 1, wins := 0, losses := 1, setsFor := 2,
      setsAgainst := 2, setDifference := 0, points := 1 }
    (by unfold computeTable; exact List.mem_mergeSort.mpr (by decide))

/-! ## C10: totality and skipping of unknown participant ids -/

/-- C10: the fold is total over arbitrary fixtures: when a fixture's
home (respectively away) participant id matches no row, that side is
silently skipped and the per-fixture step degenerates to the other
side's update alone (which still applies when that row exists); no row
is ever created or removed (the ids of the rows stay exactly as they
were), and the recomputed table's ids are always exactly the group's
participant ids. -/
theorem fold_skips_unknown_side (group : Group) (fixtures : List Match) (m : Match)
    (rows : List StandingsRow) :
    ((∀ r ∈ rows, r.participantId ≠ m.homeParticipantId) →
      applyMatch rows m =
        updateFirst (fun s => s.participantId == m.awayParticipantId)
          (awayUpdate m) rows) ∧
    ((∀ r ∈ rows, r.participantId ≠ m.awayParticipantId) →
      applyMatch rows m =
        updateFirst (fun s => s.participantId == m.homeParticipantId)
          (homeUpdate m) rows) ∧
    (applyMatch rows m).map (fun r => r.participantId) =
      rows.map (fun r => r.participantId) ∧
    ((computeTable group fixtures).map (fun r => r.participantId)).Perm
      group.participantIds := by
  refine ⟨?_, ?_, applyMatch_map_participantId rows m, ?_⟩
  · intro h
    unfold applyMatch
    rw [updateFirst_of_forall_not _ _ _
      (fun x hx => beq_eq_false_iff_ne.mpr (h x hx))]
  · intro h
    unfold applyMatch
    apply updateFirst_of_forall_not
    intro x hx
    have hmem : x.participantId ∈
        (updateFirst (fun s => s.participantId == m.homeParticipantId)
          (homeUpdate m) rows).map (fun r => r.participantId) :=
      List.mem_map_of_mem _ hx
    rw [map_updateFirst _ _ _ _ (homeUpdate_participantId m)] at hmem
    obtain ⟨r, hr, hpid⟩ := List.mem_map.mp hmem
    exact beq_eq_false_iff_ne.mpr (hpid ▸ h r hr)
  · unfold computeTable
    have hperm := List.mergeSort_perm (rawTable group fixtures) standingsLe
    have hmap := hperm.map (fun r : StandingsRow => r.participantId)
    rw [rawTable_map_participantId] at hmap
    exact hmap

/-- Witness for C10: a completed fixture whose home id `"X"` is unknown
to the group only updates the away row, and one whose away id `"Y"` is
unknown only updates the home row. -/
theorem fold_skips_unknown_side_witness :
    applyMatch [initRow "A"]
      { stage := "group", groupName := "G", homeParticipantId := "X",
        awayParticipantId := "A", homeParticipantName := "X", awayParticipantName := "A",
        homeSets := some 3, awaySets := some 1, status := MatchStatus.completed } =
      updateFirst (fun s => s.participantId ==
        ({ stage := "group", groupName := "G", homeParticipantId := "X",
           awayParticipantId := "A", homeParticipantName := "X", awayParticipantName := "A",
           homeSets := some 3, awaySets := some 1,
           status := MatchStatus.completed } : Match).awayParticipantId)
        (awayUpdate
          { stage := "group", groupName := "G", homeParticipantId := "X",
            awayParticipantId := "A", homeParticipantName := "X", awayParticipantName := "A",
            homeSets := some 3, awaySets := some 1, status := MatchStatus.completed })
        [initRow "A"] ∧
    applyMatch [initRow "A"]
      { stage := "group", groupName := "G", homeParticipantId := "A",
        awayParticipantId := "Y", homeParticipantName := "A", awayParticipantName := "Y",
        homeSets := some 3, awaySets := some 1, status := MatchStatus.completed } =
      updateFirst (fun s => s.participantId ==
        ({ stage := "group", groupName := "G", homeParticipantId := "A",
           awayParticipantId := "Y", homeParticipantName := "A", awayParticipantName := "Y",
           homeSets := some 3, awaySets := some 1,
           status := MatchStatus.completed } : Match).homeParticipantId)
        (homeUpdate
          { stage := "group", groupName := "G", homeParticipantId := "A",
            awayParticipantId := "Y", homeParticipantName := "A", awayParticipantName := "Y",
            homeSets := some 3, awaySets := some 1, status := MatchStatus.completed })
        [initRow "A"] ∧
    (applyMatch [initRow "A"]
      { stage := "group", groupName := "G", homeParticipantId := "X",
        awayParticipantId := "A", homeParticipantName := "X", awayParticipantName := "A",
        homeSets := some 3, awaySets := some 1, status := MatchStatus.completed }).map
      (fun r => r.participantId) = [initRow "A"].map (fun r => r.participantId) ∧
    ((computeTable { name := "G", participantIds := ["A"] } []).map
      (fun r => r.participantId)).Perm ["A"] :=
  ⟨(fold_skips_unknown_side { name := "G", participantIds := ["A"] } []
      { stage := "group", groupName := "G", homeParticipantId := "X",
        awayParticipantId := "A", homeParticipantName := "X", awayParticipantName := "A",
        homeSets := some 3, awaySets := some 1, status := MatchStatus.completed }
      [initRow "A"]).1 (by decide),
   (fold_skips_unknown_side { name := "G", participantIds := ["A"] } []
      { stage := "group", groupName := "G", homeParticipantId := "A",
        awayParticipantId := "Y", homeParticipantName := "A", awayParticipantName := "Y",
        homeSets := some 3, awaySets := some 1, status := MatchStatus.completed }
      [initRow "A"]).2.1 (by decide),
   (fold_skips_unknown_side { name := "G", participantIds := ["A"] } []
      { stage := "group", groupName := "G", homeParticipantId := "X",
        awayParticipantId := "A", homeParticipantName := "X", awayParticipantName := "A",
        homeSets := some 3, awaySets := some 1, status := MatchStatus.completed }
      [initRow "A"]).2.2.1,
   (fold_skips_unknown_side { name := "G", participantIds := ["A"] } []
      { stage := "group", groupName := "G", homeParticipantId := "X",
        awayParticipantId := "A", homeParticipantName := "X", awayParticipantName := "A",
        homeSets := some 3, awaySets := some 1, status := MatchStatus.completed }
      [initRow "A"]).2.2.2⟩

/-! ## C8: the standings upsert is keyed and frame-preserving -/

/-- C8: recomputation scoped to a group name yields the prior standings
with every entry for that name dropped and the freshly computed entry
appended: the result contains the new table for the name, stays
one-entry-per-name (given the data-model invariant that the prior
collection is keyed by name), and the entries for every other name are
exactly — order included — the prior ones. -/
theorem standings_upsert_frame (champ : Championship) (fixtures : List Match) (gname : String)
    (group : Group) (hg : champ.groups.find? (fun g => g.name == gname) = some group)
    (hnd : (champ.standings.map (fun s => s.groupName)).Nodup) :
    recalculateStandings champ fixtures gname =
      some (upsertStandings champ.standings gname (computeTable group fixtures)) ∧
    ({ groupName := gname, table := computeTable group fixtures } : GroupStandings) ∈
      upsertStandings champ.standings gname (computeTable group fixtures) ∧
    ((upsertStandings champ.standings gname (computeTable group fixtures)).map
        (fun s => s.groupName)).Nodup ∧
    (upsertStandings champ.standings gname (computeTable group fixtures)).filter
        (fun s => s.groupName != gname) =
      champ.standings.filter (fun s => s.groupName != gname) ∧
    (∀ s ∈ upsertStandings champ.standings gname (computeTable group fixtures),
      s.groupName ≠ gname → s ∈ champ.standings) ∧
    (∀ s ∈ upsertStandings champ.standings gname (computeTable group fixtures),
      s.groupName = gname →
        s = { groupName := gname, table := computeTable group fixtures }) := by
  refine ⟨?_, ?_, ?_, ?_, ?_, ?_⟩
  · unfold recalculateStandings
    rw [hg]
    rfl
  · unfold upsertStandings
    exact List.mem_append_right _ (List.mem_singleton.mpr rfl)
  · unfold upsertStandings
    rw [List.map_append, List.nodup_append]
    refine ⟨((List.filter_sublist _).map _).nodup hnd, List.nodup_singleton _, ?_⟩
    intro x hx
    obtain ⟨s, hs, rfl⟩ := List.mem_map.mp hx
    have := List.of_mem_filter hs
    simp only [bne_iff_ne, ne_eq] at this
    simp only [List.map_cons, List.map_nil, List.mem_singleton]
    exact this
  · unfold upsertStandings
    rw [List.filter_append]
    have h1 : (([{ groupName := gname, table := computeTable group fixtures }] :
        List GroupStandings).filter (fun s => s.groupName != gname)) = [] := by
      simp
    rw [h1, List.append_nil, List.filter_filter]
    simp
  · unfold upsertStandings
    intro s hs hne
    rcases List.mem_append.mp hs with h | h
    · exact List.mem_of_mem_filter h
    · rw [List.mem_singleton] at h
      exact absurd (h ▸ rfl) hne
  · unfold upsertStandings
    intro s hs heq
    rcases List.mem_append.mp hs with h | h
    · have := List.of_mem_filter h
      simp only [bne_iff_ne, ne_eq] at this
      exact absurd heq this
    · exact List.mem_singleton.mp h

/-- Witness for C8 on a two-group championship. -/
theorem standings_upsert_frame_witness :
    recalculateStandings
        { groups := [{ name := "Grupo A", participantIds := ["A"] }],
          standings := [{ groupName := "Grupo B", table := [] }] } [] "Grupo A" =
      some (upsertStandings [{ groupName := "Grupo B", table := [] }] "Grupo A"
        (computeTable { name := "Grupo A", participantIds := ["A"] } [])) ∧
    ({ groupName := "Grupo A",
       table := computeTable { name := "Grupo A", participantIds := ["A"] } [] } :
        GroupStandings) ∈
      upsertStandings [{ groupName := "Grupo B", table := [] }] "Grupo A"
        (computeTable { name := "Grupo A", participantIds := ["A"] } []) ∧
    ((upsertStandings [{ groupName := "Grupo B", table := [] }] "Grupo A"
        (computeTable { name := "Grupo A", participantIds := ["A"] } [])).map
      (fun s => s.groupName)).Nodup ∧
    (upsertStandings [{ groupName := "Grupo B", table := [] }] "Grupo A"
        (computeTable { name := "Grupo A", participantIds := ["A"] } [])).filter
      (fun s => s.groupName != "Grupo A") =
      ([{ groupName := "Grupo B", table := [] }] : List GroupStandings).filter
        (fun s => s.groupName != "Grupo A") ∧
    (∀ s ∈ upsertStandings [{ groupName := "Grupo B", table := [] }] "Grupo A"
        (computeTable { name := "Grupo A", participantIds := ["A"] } []),
      s.groupName ≠ "Grupo A" → s ∈ [({ groupName := "Grupo B", table := [] } :
        GroupStandings)]) ∧
    (∀ s ∈ upsertStandings [{ groupName := "Grupo B", table := [] }] "Grupo A"
        (computeTable { name := "Grupo A", participantIds := ["A"] } []),
      s.groupName = "Grupo A" →
        s = { groupName := "Grupo A",
              table := computeTable { name := "Grupo A", participantIds := ["A"] } [] }) :=
  standings_upsert_frame
    { groups := [{ name := "Grupo A", participantIds := ["A"] }],
      standings := [{ groupName := "Grupo B", table := [] }] } [] "Grupo A"
    { name := "Grupo A", participantIds := ["A"] } (by decide) (by decide)

/-! ## C2: ranking order and stability -/

theorem standingsLe_iff (a b : StandingsRow) :
    standingsLe a b = true ↔ specDescLex a b := by
  unfold standingsLe standingsCmp specDescLex
  rw [decide_eq_true_eq]
  split_ifs with h1 h2 h3 <;> omega

theorem standingsLe_trans (a b c : StandingsRow) :
    standingsLe a b = true → standingsLe b c = true → standingsLe a c = true := by
  rw [standingsLe_iff, standingsLe_iff, standingsLe_iff]
  unfold specDescLex
  omega

theorem standingsLe_total (a b : StandingsRow) :
    (standingsLe a b || standingsLe b a) = true := by
  rw [Bool.or_eq_true, standingsLe_iff, standingsLe_iff]
  unfold specDescLex
  omega

/-- C2: the recomputed table is ordered descending by `points`, then
`setDifference`, then `setsFor`; and rows tied on all three keys appear
in the relative order of their participants in `group.participantIds`
(the sort is stable and the initial rows are created in membership
order). -/
theorem standings_sorted_stable (group : Group) (fixtures : List Match)
    (hnd : group.participantIds.Nodup) :
    (computeTable group fixtures).Pairwise specDescLex ∧
    ∀ a b, a ∈ computeTable group fixtures → b ∈ computeTable group fixtures →
      sameRankKeys a b →
      [a.participantId, b.participantId].Sublist group.participantIds →
      [a, b].Sublist (computeTable group fixtures) := by
  constructor
  · have h := List.sorted_mergeSort
      (fun a b c => standingsLe_trans a b c)
      (fun a b => standingsLe_total a b) (rawTable group fixtures)
    exact List.Pairwise.imp (fun hab => (standingsLe_iff _ _).mp hab) h
  · intro a b ha hb hkeys hord
    have hmap : (rawTable group fixtures).map (fun r => r.participantId) =
        group.participantIds := rawTable_map_participantId group fixtures
    rw [← hmap] at hord
    obtain ⟨l', hl', heq⟩ := List.sublist_map_iff.mp hord
    have hndt : ((rawTable group fixtures).map (fun r => r.participantId)).Nodup := by
      rw [hmap]; exact hnd
    unfold computeTable at ha hb
    rw [List.mem_mergeSort] at ha hb
    have hlen : l'.length = 2 := by
      have := congrArg List.length heq
      simpa using this.symm
    obtain ⟨x, y, rfl⟩ := List.length_eq_two.mp hlen
    rw [List.map_cons, List.map_cons, List.map_nil] at heq
    have hax : a.participantId = x.participantId := (List.cons.injEq _ _ _ _ ▸ heq).1
    have hby : b.participantId = y.participantId := by
      have h2 := (List.cons.injEq _ _ _ _ ▸ heq).2
      exact (List.cons.injEq _ _ _ _ ▸ h2).1
    · have hxmem : x ∈ rawTable group fixtures := hl'.subset (by simp)
      have hymem : y ∈ rawTable group fixtures := hl'.subset (by simp)
      have hxa : a = x := List.inj_on_of_nodup_map hndt ha hxmem hax
      have hyb : b = y := List.inj_on_of_nodup_map hndt hb hymem hby
      have hle : standingsLe a b = true := by
        rw [standingsLe_iff]
        unfold specDescLex
        obtain ⟨h1, h2, h3⟩ := hkeys
        omega
      unfold computeTable
      exact List.pair_sublist_mergeSort
        (fun a b c => standingsLe_trans a b c)
        (fun a b => standingsLe_total a b)
        hle (hxa ▸ hyb ▸ hl')

/-- Witness for C2 on a two-participant group with no fixtures. -/
theorem standings_sorted_stable_witness :
    (computeTable { name := "G", participantIds := ["A", "B"] } []).Pairwise specDescLex ∧
    ∀ a b, a ∈ computeTable { name := "G", participantIds := ["A", "B"] } [] →
      b ∈ computeTable { name := "G", participantIds := ["A", "B"] } [] →
      sameRankKeys a b →
      [a.participantId, b.participantId].Sublist ["A", "B"] →
      [a, b].Sublist (computeTable { name := "G", participantIds := ["A", "B"] } []) :=
  standings_sorted_stable { name := "G", participantIds := ["A", "B"] } [] (by decide)

/-! ## C3: round-robin schedule generation -/

theorem flatMap_single {α β : Type} (l : List α) (f : α → β) :
    l.flatMap (fun x => [f x]) = l.map f := by
  induction l with
  | nil => rfl
  | cons x xs ih => simp [List.flatMap_cons, ih]

theorem schedulePairs_length {α : Type} (l : List α) :
    (schedulePairs l).length = l.length * (l.length - 1) / 2 := by
  induction l with
  | nil => simp [schedulePairs]
  | cons x xs ih =>
      rw [schedulePairs, List.length_append, List.length_map, ih, List.length_cons]
      cases hx : xs.length with
      | zero => rfl
      | succ k =>
          have hb : (k + 1 + 1) * (k + 1 + 1 - 1) = (k + 1) * (k + 1 - 1) + 2 * (k + 1) := by
            simp only [Nat.add_sub_cancel]
            ring
          rw [hb]
          omega

theorem mem_schedulePairs {α : Type} (l : List α) (p : α × α)
    (hp : p ∈ schedulePairs l) : [p.1, p.2].Sublist l := by
  induction l with
  | nil => cases hp
  | cons x xs ih =>
      rw [schedulePairs, List.mem_append] at hp
      rcases hp with h | h
      · obtain ⟨y, hy, rfl⟩ := List.mem_map.mp h
        exact List.cons_sublist_cons.mpr (List.singleton_sublist.mpr hy)
      · exact (ih h).cons x

theorem schedulePairs_count {α : Type} [DecidableEq α] (l : List α) (hnd : l.Nodup)
    (a b : α) :
    (schedulePairs l).count (a, b) = if [a, b].Sublist l then 1 else 0 := by
  induction l with
  | nil => simp [schedulePairs]
  | cons x xs ih =>
      rw [schedulePairs, List.count_append]
      rcases List.nodup_cons.mp hnd with ⟨hx, hxs⟩
      by_cases hax : a = x
      · subst hax
        have hmap : ∀ ys : List α, (ys.map (fun y => (a, y))).count (a, b) = ys.count b := by
          intro ys
          induction ys with
          | nil => rfl
          | cons y ys ihy =>
              rw [List.map_cons, List.count_cons, List.count_cons, ihy]
              have hbeq : (((a, y) : α × α) == (a, b)) = (y == b) := by
                by_cases h : y = b <;> simp [h]
              rw [hbeq]
        rw [hmap]
        have hsub : ¬ [a, b].Sublist xs := fun hcon => hx (hcon.subset (by simp))
        rw [ih hxs, if_neg hsub]
        by_cases hb : b ∈ xs
        · rw [List.count_eq_one_of_mem hxs hb,
            if_pos (List.cons_sublist_cons.mpr (List.singleton_sublist.mpr hb))]
        · rw [List.count_eq_zero.mpr hb, if_neg]
          intro hcon
          rcases List.sublist_cons_iff.mp hcon with h | ⟨r, hr, hrs⟩
          · exact hx (h.subset (by simp))
          · obtain ⟨-, hr2⟩ := List.cons_eq_cons.mp hr
            subst hr2
            exact hb (List.singleton_sublist.mp hrs)
      · have hmap : (xs.map (fun y => (x, y))).count (a, b) = 0 := by
          rw [List.count_eq_zero]
          intro hcon
          obtain ⟨y, _, hy⟩ := List.mem_map.mp hcon
          exact hax ((Prod.mk.injEq _ _ _ _ ▸ hy).1.symm)
        have hiff : [a, b].Sublist (x :: xs) ↔ [a, b].Sublist xs := by
          constructor
          · intro hcon
            rcases List.sublist_cons_iff.mp hcon with h | ⟨r, hr, _⟩
            · exact h
            · exact absurd (List.cons_eq_cons.mp hr).1 hax
          · exact fun h => h.cons x
        rw [hmap, ih hxs, if_congr hiff rfl rfl]
        omega

theorem generateFixtures_single_eq (participants : List Participant) (group : Group) :
    generateFixtures participants group MatchFormat.single =
      (schedulePairs group.participantIds).map
        (fun pr => matchBase participants group.name pr.1 pr.2) := by
  unfold generateFixtures pairFixtures
  simp only [reduceCtorEq, if_false]
  exact flatMap_single _ _

theorem generateFixtures_haa_eq (participants : List Participant) (group : Group) :
    generateFixtures participants group MatchFormat.home_and_away =
      (generateFixtures participants group MatchFormat.single).flatMap
        (fun f => [f, mirrorFixture f]) := by
  rw [generateFixtures_single_eq]
  unfold generateFixtures pairFixtures
  rw [List.flatMap_map]
  rfl

theorem single_pairs_proj (participants : List Participant) (group : Group) :
    (generateFixtures participants group MatchFormat.single).map
      (fun f => (f.homeParticipantId, f.awayParticipantId)) =
      schedulePairs group.participantIds := by
  rw [generateFixtures_single_eq, List.map_map]
  have : ((fun f : Match => (f.homeParticipantId, f.awayParticipantId)) ∘
      (fun pr : String × String => matchBase participants group.name pr.1 pr.2)) =
      fun pr : String × String => pr := by
    funext pr
    rfl
  simp only [this, List.map_id_fun', id_eq]

theorem haa_pairs_proj (participants : List Participant) (group : Group) :
    (generateFixtures participants group MatchFormat.home_and_away).map
      (fun f => (f.homeParticipantId, f.awayParticipantId)) =
      (schedulePairs group.participantIds).flatMap (fun p => [p, p.swap]) := by
  rw [generateFixtures_haa_eq, List.map_flatMap, ← single_pairs_proj participants group,
    List.flatMap_map]
  rfl

theorem count_flatMap_swap {α : Type} [DecidableEq α] (l : List (α × α)) (a b : α) :
    (l.flatMap (fun p => [p, p.swap])).count (a, b) = l.count (a, b) + l.count (b, a) := by
  induction l with
  | nil => rfl
  | cons p ps ih =>
      rw [List.flatMap_cons, List.count_append, ih]
      have hswap : (p.swap == (a, b)) = (p == (b, a)) := by
        cases p with
        | mk u v =>
            show ((v, u) == (a, b)) = ((u, v) == (b, a))
            by_cases h1 : v = a <;> by_cases h2 : u = b <;> simp [h1, h2]
      have hcount : List.count (a, b) [p, p.swap] =
          (if p == (a, b) then 1 else 0) + (if p == (b, a) then 1 else 0) := by
        rw [List.count_cons, List.count_cons, List.count_nil, hswap]
        omega
      rw [hcount, List.count_cons (a, b) p ps, List.count_cons (b, a) p ps]
      split_ifs <;> omega

theorem pair_sublist_of_mem {α : Type} (l : List α) (hnd : l.Nodup) (a b : α)
    (ha : a ∈ l) (hb : b ∈ l) (hne : a ≠ b) :
    [a, b].Sublist l ∨ [b, a].Sublist l := by
  induction l with
  | nil => cases ha
  | cons x xs ih =>
      rcases List.nodup_cons.mp hnd with ⟨hx, hxs⟩
      rcases List.mem_cons.mp ha with rfl | ha'
      · left
        refine List.cons_sublist_cons.mpr (List.singleton_sublist.mpr ?_)
        rcases List.mem_cons.mp hb with rfl | hb'
        · exact absurd rfl hne
        · exact hb'
      · rcases List.mem_cons.mp hb with rfl | hb'
        · right
          exact List.cons_sublist_cons.mpr (List.singleton_sublist.mpr ha')
        · rcases ih hxs ha' hb' with h | h
          · exact Or.inl (h.cons x)
          · exact Or.inr (h.cons x)

theorem pair_sublist_asymm {α : Type} (l : List α) (hnd : l.Nodup) (a b : α) (hne : a ≠ b)
    (h1 : [a, b].Sublist l) (h2 : [b, a].Sublist l) : False := by
  induction l with
  | nil => simp at h1
  | cons x xs ih =>
      rcases List.nodup_cons.mp hnd with ⟨hx, hxs⟩
      rcases List.sublist_cons_iff.mp h1 with h1' | ⟨r, hr, hrs⟩
      · rcases List.sublist_cons_iff.mp h2 with h2' | ⟨r2, hr2, hrs2⟩
        · exact ih hxs h1' h2'
        · obtain ⟨hbx, -⟩ := List.cons_eq_cons.mp hr2
          subst hbx
          exact hx (h1'.subset (by simp))
      · obtain ⟨hax, hreq⟩ := List.cons_eq_cons.mp hr
        subst hax
        subst hreq
        rcases List.sublist_cons_iff.mp h2 with h2' | ⟨r2, hr2, hrs2⟩
        · exact hx (h2'.subset (by simp))
        · exact hne ((List.cons_eq_cons.mp hr2).1).symm

theorem length_flatMap_pair {α β : Type} (l : List α) (f g : α → β) :
    (l.flatMap (fun x => [f x, g x])).length = 2 * l.length := by
  induction l with
  | nil => rfl
  | cons x xs ih =>
      rw [List.flatMap_cons, List.length_append, ih, List.length_cons]
      simp only [List.length_cons, List.length_nil]
      omega

theorem two_dvd_mul_pred (n : Nat) : 2 ∣ n * (n - 1) := by
  cases n with
  | zero => simp
  | succ k =>
      rw [Nat.succ_sub_one, Nat.mul_comm]
      exact (Nat.even_mul_succ_self k).two_dvd

/-- C3: for a group with pairwise-distinct participant ids, generation
in `single` format emits one pending fixture per unordered pair
`(p_i, p_j)` with `i < j` in participant order (home `p_i`, away `p_j`),
`n * (n - 1) / 2` fixtures in total, no self-pairing and no duplicate
pair (each ordered pair in participant order has count exactly 1, every
other count 0); `home_and_away` format is the single schedule with the
mirrored fixture inserted immediately after each first fixture,
`n * (n - 1)` fixtures in total, each ordered pair of distinct members
exactly once. -/
theorem schedule_generation (participants : List Participant) (group : Group)
    (hnd : group.participantIds.Nodup) :
    (generateFixtures participants group MatchFormat.single).length =
      group.participantIds.length * (group.participantIds.length - 1) / 2 ∧
    (generateFixtures participants group MatchFormat.home_and_away).length =
      group.participantIds.length * (group.participantIds.length - 1) ∧
    (∀ f ∈ generateFixtures participants group MatchFormat.single,
      f.status = MatchStatus.pending ∧ f.groupName = group.name ∧
      f.homeSets = none ∧ f.awaySets = none ∧
      f.homeParticipantId ≠ f.awayParticipantId) ∧
    (∀ f ∈ generateFixtures participants group MatchFormat.home_and_away,
      f.status = MatchStatus.pending ∧ f.groupName = group.name ∧
      f.homeSets = none ∧ f.awaySets = none ∧
      f.homeParticipantId ≠ f.awayParticipantId) ∧
    generateFixtures participants group MatchFormat.home_and_away =
      (generateFixtures participants group MatchFormat.single).flatMap
        (fun f => [f, mirrorFixture f]) ∧
    (∀ a b : String,
      ((generateFixtures participants group MatchFormat.single).map
        (fun f => (f.homeParticipantId, f.awayParticipantId))).count (a, b) =
      if [a, b].Sublist group.participantIds then 1 else 0) ∧
    (∀ a b : String,
      ((generateFixtures participants group MatchFormat.home_and_away).map
        (fun f => (f.homeParticipantId, f.awayParticipantId))).count (a, b) =
      if a ≠ b ∧ a ∈ group.participantIds ∧ b ∈ group.participantIds then 1 else 0) := by
  have hsinglelen : (generateFixtures participants group MatchFormat.single).length =
      group.participantIds.length * (group.participantIds.length - 1) / 2 := by
    rw [generateFixtures_single_eq, List.length_map, schedulePairs_length]
  have hsinglemem : ∀ f ∈ generateFixtures participants group MatchFormat.single,
      f.status = MatchStatus.pending ∧ f.groupName = group.name ∧
      f.homeSets = none ∧ f.awaySets = none ∧
      f.homeParticipantId ≠ f.awayParticipantId := by
    intro f hf
    rw [generateFixtures_single_eq] at hf
    obtain ⟨pr, hpr, rfl⟩ := List.mem_map.mp hf
    refine ⟨rfl, rfl, rfl, rfl, ?_⟩
    have hpair := List.Nodup.sublist (mem_schedulePairs _ _ hpr) hnd
    rcases List.nodup_cons.mp hpair with ⟨h1, -⟩
    exact fun hcon => h1 (List.mem_singleton.mpr hcon)
  refine ⟨hsinglelen, ?_, hsinglemem, ?_, generateFixtures_haa_eq participants group, ?_, ?_⟩
  · rw [generateFixtures_haa_eq, length_flatMap_pair, hsinglelen,
      Nat.mul_div_cancel' (two_dvd_mul_pred group.participantIds.length)]
  · intro f hf
    rw [generateFixtures_haa_eq] at hf
    obtain ⟨g, hg, hfg⟩ := List.mem_flatMap.mp hf
    obtain ⟨hst, hgn, hhs, has, hne⟩ := hsinglemem g hg
    rcases List.mem_cons.mp hfg with rfl | hfg'
    · exact ⟨hst, hgn, hhs, has, hne⟩
    · rw [List.mem_singleton] at hfg'
      subst hfg'
      exact ⟨hst, hgn, hhs, has, fun hcon => hne hcon.symm⟩
  · intro a b
    rw [single_pairs_proj]
    exact schedulePairs_count _ hnd a b
  · intro a b
    rw [haa_pairs_proj, count_flatMap_swap, schedulePairs_count _ hnd,
      schedulePairs_count _ hnd]
    by_cases hab : a = b
    · subst hab
      have hno : ¬ [a, a].Sublist group.participantIds := fun hcon => by
        have := List.Nodup.sublist hcon hnd
        simp at this
      rw [if_neg hno, if_neg (fun hc => hc.1 rfl)]
    · by_cases hmema : a ∈ group.participantIds
      · by_cases hmemb : b ∈ group.participantIds
        · rcases pair_sublist_of_mem _ hnd a b hmema hmemb hab with h | h
          · rw [if_pos h, if_neg (fun h2 => pair_sublist_asymm _ hnd a b hab h h2),
              if_pos ⟨hab, hmema, hmemb⟩]
          · rw [if_neg (fun h2 => pair_sublist_asymm _ hnd a b hab h2 h), if_pos h,
              if_pos ⟨hab, hmema, hmemb⟩]
        · have hno1 : ¬ [a, b].Sublist group.participantIds :=
            fun h => hmemb (h.subset (by simp))
          have hno2 : ¬ [b, a].Sublist group.participantIds :=
            fun h => hmemb (h.subset (by simp))
          rw [if_neg hno1, if_neg hno2, if_neg (fun hc => hmemb hc.2.2)]
      · have hno1 : ¬ [a, b].Sublist group.participantIds :=
          fun h => hmema (h.subset (by simp))
        have hno2 : ¬ [b, a].Sublist group.participantIds :=
          fun h => hmema (h.subset (by simp))
        rw [if_neg hno1, if_neg hno2, if_neg (fun hc => hmema hc.2.1)]

/-- Witness for C3 on a two-participant group. -/
theorem schedule_generation_witness :
    (generateFixtures [] { name := "G", participantIds := ["a", "b"] }
      MatchFormat.single).length = 2 * (2 - 1) / 2 ∧
    (generateFixtures [] { name := "G", participantIds := ["a", "b"] }
      MatchFormat.home_and_away).length = 2 * (2 - 1) ∧
    (∀ f ∈ generateFixtures [] { name := "G", participantIds := ["a", "b"] }
        MatchFormat.single,
      f.status = MatchStatus.pending ∧ f.groupName = "G" ∧
      f.homeSets = none ∧ f.awaySets = none ∧
      f.homeParticipantId ≠ f.awayParticipantId) ∧
    (∀ f ∈ generateFixtures [] { name := "G", participantIds := ["a", "b"] }
        MatchFormat.home_and_away,
      f.status = MatchStatus.pending ∧ f.groupName = "G" ∧
      f.homeSets = none ∧ f.awaySets = none ∧
      f.homeParticipantId ≠ f.awayParticipantId) ∧
    generateFixtures [] { name := "G", participantIds := ["a", "b"] }
        MatchFormat.home_and_away =
      (generateFixtures [] { name := "G", participantIds := ["a", "b"] }
        MatchFormat.single).flatMap (fun f => [f, mirrorFixture f]) ∧
    (∀ a b : String,
      ((generateFixtures [] { name := "G", participantIds := ["a", "b"] }
          MatchFormat.single).map
        (fun f => (f.homeParticipantId, f.awayParticipantId))).count (a, b) =
      if [a, b].Sublist ["a", "b"] then 1 else 0) ∧
    (∀ a b : String,
      ((generateFixtures [] { name := "G", participantIds := ["a", "b"] }
          MatchFormat.home_and_away).map
        (fun f => (f.homeParticipantId, f.awayParticipantId))).count (a, b) =
      if a ≠ b ∧ a ∈ (["a", "b"] : List String) ∧ b ∈ (["a", "b"] : List String)
        then 1 else 0) :=
  schedule_generation [] { name := "G", participantIds := ["a", "b"] } (by decide)

/-! ## C4: group partitioning -/

theorem pushIdx_length {α : Type} (gs : List (List α)) (k : Nat) (x : α) :
    (pushIdx gs k x).length = gs.length := by
  unfold pushIdx
  exact List.length_set gs k _

theorem distribAux_length {α : Type} (g : Nat) (ps : List α) :
    ∀ (gs : List (List α)) (i : Nat), (distribAux g gs i ps).length = gs.length := by
  induction ps with
  | nil => intro gs i; rfl
  | cons x xs ih =>
      intro gs i
      rw [distribAux, ih, pushIdx_length]

theorem distribute_length {α : Type} (ps : List α) (g : Nat) :
    (distribute ps g).length = g := by
  unfold distribute
  rw [distribAux_length, List.length_replicate]

theorem pushIdx_getD_self {α : Type} (gs : List (List α)) (k : Nat) (x : α)
    (hk : k < gs.length) : (pushIdx gs k x).getD k [] = gs.getD k [] ++ [x] := by
  unfold pushIdx
  rw [List.getD_eq_getElem?_getD, List.getElem?_set_self hk, Option.getD_some]

theorem pushIdx_getD_ne {α : Type} (gs : List (List α)) (k r : Nat) (x : α)
    (hne : k ≠ r) : (pushIdx gs k x).getD r [] = gs.getD r [] := by
  unfold pushIdx
  rw [List.getD_eq_getElem?_getD, List.getElem?_set_ne hne, ← List.getD_eq_getElem?_getD]

theorem distribAux_getD {α : Type} (g : Nat) (hg : 0 < g) (ps : List α) :
    ∀ (gs : List (List α)) (i : Nat), gs.length = g → ∀ r, r < g →
    (distribAux g gs i ps).getD r [] =
      gs.getD r [] ++ ((List.enumFrom i ps).filter (fun z => z.1 % g = r)).map Prod.snd := by
  induction ps with
  | nil =>
      intro gs i hlen r hr
      simp [distribAux]
  | cons x xs ih =>
      intro gs i hlen r hr
      rw [distribAux, ih _ _ (by rw [pushIdx_length]; exact hlen) r hr, List.enumFrom_cons]
      by_cases hir : i % g = r
      · subst hir
        rw [List.filter_cons_of_pos (by simp), List.map_cons,
          pushIdx_getD_self gs (i % g) x (by rw [hlen]; exact hr),
          List.append_assoc]
        rfl
      · rw [List.filter_cons_of_neg (by simp [hir]), pushIdx_getD_ne gs (i % g) r x hir]

theorem distribute_getD {α : Type} (ps : List α) (g : Nat) (hg : 0 < g) (r : Nat)
    (hr : r < g) :
    (distribute ps g).getD r [] =
      (ps.enum.filter (fun z => z.1 % g = r)).map Prod.snd := by
  unfold distribute
  rw [distribAux_getD g hg ps _ 0 (List.length_replicate g []) r hr]
  have hrep : (List.replicate g ([] : List α)).getD r [] = [] := by
    rw [List.getD_eq_getElem?_getD, List.getElem?_replicate]
    simp [hr]
  rw [hrep, List.nil_append]
  rfl

theorem countP_range_mod (g : Nat) (hg : 0 < g) (r : Nat) (n : Nat) :
    (List.range n).countP (fun i => i % g = r) =
      n / g * (if r < g then 1 else 0) +
        (if r < n % g then 1 else 0) := by
  induction n with
  | zero => simp
  | succ n ih =>
      rw [List.range_succ, List.countP_append, ih]
      have hsplit := Nat.div_add_mod n g
      have hmodlt : n % g < g := Nat.mod_lt n hg
      have hone : List.countP (fun i => decide (i % g = r)) [n] =
          if n % g = r then 1 else 0 := by
        rw [List.countP_cons, List.countP_nil]
        simp
      have hd : (n + 1) / g = n / g + (n % g + 1) / g := by
        conv_lhs => rw [← hsplit]
        rw [Nat.add_assoc, Nat.mul_add_div hg]
      have hm : (n + 1) % g = (n % g + 1) % g := by
        conv_lhs => rw [← hsplit]
        rw [Nat.add_assoc, Nat.mul_add_mod]
      rw [hone]
      by_cases hcase : n % g + 1 = g
      · have h1 : (n % g + 1) / g = 1 := by rw [hcase]; exact Nat.div_self hg
        have h2 : (n % g + 1) % g = 0 := by rw [hcase]; exact Nat.mod_self g
        rw [hd, h1, hm, h2]
        split_ifs <;> omega
      · have hlt : n % g + 1 < g := lt_of_le_of_ne (Nat.succ_le_of_lt hmodlt) hcase
        have h1 : (n % g + 1) / g = 0 := Nat.div_eq_of_lt hlt
        have h2 : (n % g + 1) % g = n % g + 1 := Nat.mod_eq_of_lt hlt
        rw [hd, h1, hm, h2]
        split_ifs <;> omega

theorem distribute_bucket_length {α : Type} (ps : List α) (g : Nat) (hg : 0 < g)
    (r : Nat) (hr : r < g) :
    ((distribute ps g).getD r []).length =
      ps.length / g + (if r < ps.length % g then 1 else 0) := by
  rw [distribute_getD ps g hg r hr, List.length_map, ← List.countP_eq_length_filter]
  have hcomp := List.countP_map (fun i => decide (i % g = r)) (Prod.fst (α := Nat) (β := α))
    ps.enum
  rw [List.enum_map_fst] at hcomp
  have heq : List.countP ((fun i => decide (i % g = r)) ∘ Prod.fst) ps.enum =
      List.countP (fun z : Nat × α => decide (z.1 % g = r)) ps.enum := rfl
  rw [heq] at hcomp
  rw [← hcomp, countP_range_mod g hg r ps.length, if_pos hr, Nat.mul_one]

theorem flatten_pushIdx {α : Type} (gs : List (List α)) (k : Nat) (x : α)
    (hk : k < gs.length) :
    (pushIdx gs k x).flatten.Perm (gs.flatten ++ [x]) := by
  induction gs generalizing k with
  | nil => simp at hk
  | cons y ys ih =>
      cases k with
      | zero =>
          show ((y ++ [x]) :: ys).flatten.Perm ((y :: ys).flatten ++ [x])
          rw [List.flatten_cons, List.flatten_cons, List.append_assoc, List.append_assoc]
          exact List.Perm.append_left y List.perm_append_comm
      | succ k =>
          have hks : k < ys.length := by simpa using hk
          show (y :: pushIdx ys k x).flatten.Perm ((y :: ys).flatten ++ [x])
          rw [List.flatten_cons, List.flatten_cons, List.append_assoc]
          exact List.Perm.append_left y (ih k hks)

theorem flatten_distribAux {α : Type} (g : Nat) (hg : 0 < g) (ps : List α) :
    ∀ (gs : List (List α)) (i : Nat), gs.length = g →
    (distribAux g gs i ps).flatten.Perm (gs.flatten ++ ps) := by
  induction ps with
  | nil => intro gs i hlen; simp [distribAux]
  | cons x xs ih =>
      intro gs i hlen
      rw [distribAux]
      refine (ih _ _ (by rw [pushIdx_length]; exact hlen)).trans ?_
      have h2 := flatten_pushIdx gs (i % g) x (by rw [hlen]; exact Nat.mod_lt _ hg)
      have h3 := h2.append_right xs
      rw [List.append_assoc] at h3
      exact h3

theorem distribute_flatten_perm {α : Type} (ps : List α) (g : Nat) (hg : 0 < g) :
    (distribute ps g).flatten.Perm ps := by
  unfold distribute
  have h := flatten_distribAux g hg ps (List.replicate g []) 0 (List.length_replicate g [])
  have hnil : ∀ k : Nat, (List.replicate k ([] : List α)).flatten = [] := by
    intro k
    induction k with
    | zero => rfl
    | succ k ihk => rw [List.replicate_succ, List.flatten_cons, List.nil_append, ihk]
  rw [hnil g, List.nil_append] at h
  exact h

theorem distribute_disjoint {α : Type} (ps : List α) (g : Nat) (hg : 0 < g)
    (hnd : ps.Nodup) : (distribute ps g).Pairwise List.Disjoint := by
  have hperm := distribute_flatten_perm ps g hg
  have hflat : (distribute ps g).flatten.Nodup := hperm.nodup_iff.mpr hnd
  exact (List.nodup_flatten.mp hflat).2

theorem distribute_sizes {α : Type} (ps : List α) (g : Nat) (hg : 0 < g) :
    ∀ l ∈ distribute ps g,
      l.length = ps.length / g ∨ l.length = (ps.length + g - 1) / g := by
  intro l hl
  obtain ⟨r, hr, hget⟩ := List.mem_iff_getElem.mp hl
  have hrg : r < g := by rw [← distribute_length ps g]; exact hr
  have hgetD : (distribute ps g).getD r [] = l := by
    rw [List.getD_eq_getElem _ _ hr, hget]
  rw [← hgetD, distribute_bucket_length ps g hg r hrg]
  have hsum := Nat.div_add_mod ps.length g
  have hmodlt : ps.length % g < g := Nat.mod_lt _ hg
  by_cases hcase : r < ps.length % g
  · right
    rw [if_pos hcase]
    have hs1 : 1 ≤ ps.length % g := by omega
    have key : (ps.length + g - 1) / g = ps.length / g + 1 := by
      have hmul : g * (ps.length / g + 1) = g * (ps.length / g) + g := by ring
      have heq : ps.length + g - 1 = g * (ps.length / g + 1) + (ps.length % g - 1) := by
        omega
      have hlt2 : ps.length % g - 1 < g := by omega
      rw [heq, Nat.mul_add_div hg, Nat.div_eq_of_lt hlt2, Nat.add_zero]
    rw [key]
  · left
    rw [if_neg hcase, Nat.add_zero]

theorem map_range_getD {α : Type} (l : List α) (d : α) :
    (List.range l.length).map (fun i => l.getD i d) = l := by
  apply List.ext_getElem
  · simp
  · intro i h1 h2
    simp only [List.getElem_map, List.getElem_range]
    exact List.getD_eq_getElem l d h2

/-- C4: for any permuted participant list with at least 2 members and
any `g ≥ 1` groups, partitioning pushes the element at permuted index
`i` into group `i % g` preserving order within each group, every group
gets `⌊n / g⌋` or `⌈n / g⌉` participants, the groups' members
together are a permutation of the input ids, and (for distinct ids) the
groups are pairwise disjoint. -/
theorem partition_striping (shuffled : List Participant) (g : Nat)
    (h2 : 2 ≤ shuffled.length) (hg : 1 ≤ g)
    (hnd : (shuffled.map (fun p => p.id)).Nodup) :
    ∃ gs, generateGroups shuffled g = Except.ok gs ∧
      gs.length = g ∧
      gs.map (fun grp => grp.participantIds) =
        distribute (shuffled.map (fun p => p.id)) g ∧
      (∀ r, r < g → (gs.map (fun grp => grp.participantIds)).getD r [] =
        (((shuffled.map (fun p => p.id)).enum.filter
          (fun z => z.1 % g = r)).map Prod.snd)) ∧
      (∀ grp ∈ gs, grp.participantIds.length = shuffled.length / g ∨
        grp.participantIds.length = (shuffled.length + g - 1) / g) ∧
      ((gs.map (fun grp => grp.participantIds)).flatten).Perm
        (shuffled.map (fun p => p.id)) ∧
      (gs.map (fun grp => grp.participantIds)).Pairwise List.Disjoint := by
  have hg0 : 0 < g := hg
  have hok : generateGroups shuffled g =
      Except.ok ((List.range g).map
        (fun i => { name := groupLabel i,
                    participantIds := (distribute (shuffled.map (fun p => p.id)) g).getD i [] })) := by
    unfold generateGroups
    rw [if_neg (by simp only [Bool.or_eq_true, decide_eq_true_eq]; omega)]
  have hmaps : ((List.range g).map
      (fun i =>
        ({ name := groupLabel i,
           participantIds := (distribute (shuffled.map (fun p => p.id)) g).getD i [] } :
          Group))).map (fun grp => grp.participantIds) =
      distribute (shuffled.map (fun p => p.id)) g := by
    rw [List.map_map]
    have hcomp : ((fun grp : Group => grp.participantIds) ∘
        (fun i => { name := groupLabel i,
                    participantIds := (distribute (shuffled.map (fun p => p.id)) g).getD i [] })) =
        fun i => (distribute (shuffled.map (fun p => p.id)) g).getD i [] := rfl
    rw [hcomp]
    have hmr := map_range_getD (distribute (shuffled.map (fun p => p.id)) g) ([] : List String)
    rw [distribute_length] at hmr
    exact hmr
  refine ⟨_, hok, ?_, hmaps, ?_, ?_, ?_, ?_⟩
  · rw [List.length_map, List.length_range]
  · intro r hr
    rw [hmaps]
    exact distribute_getD _ g hg0 r hr
  · intro grp hgrp
    obtain ⟨i, hi, rfl⟩ := List.mem_map.mp hgrp
    have hmem : (distribute (shuffled.map (fun p => p.id)) g).getD i [] ∈
        distribute (shuffled.map (fun p => p.id)) g := by
      have hi2 : i < (distribute (shuffled.map (fun p => p.id)) g).length := by
        rw [distribute_length]
        exact List.mem_range.mp hi
      rw [List.getD_eq_getElem _ _ hi2]
      exact List.getElem_mem hi2
    have hsz := distribute_sizes (shuffled.map (fun p => p.id)) g hg0 _ hmem
    rw [List.length_map] at hsz
    exact hsz
  · rw [hmaps]
    exact distribute_flatten_perm _ g hg0
  · rw [hmaps]
    exact distribute_disjoint _ g hg0 hnd

/-- Witness for C4: three participants into two groups. -/
theorem partition_striping_witness :
    ∃ gs, generateGroups
        [{ id := "a", name := "A" }, { id := "b", name := "B" },
         { id := "c", name := "C" }] 2 = Except.ok gs ∧
      gs.length = 2 ∧
      gs.map (fun grp => grp.participantIds) =
        distribute (([{ id := "a", name := "A" }, { id := "b", name := "B" },
          { id := "c", name := "C" }] : List Participant).map (fun p => p.id)) 2 ∧
      (∀ r, r < 2 → (gs.map (fun grp => grp.participantIds)).getD r [] =
        (((([{ id := "a", name := "A" }, { id := "b", name := "B" },
          { id := "c", name := "C" }] : List Participant).map
            (fun p => p.id)).enum.filter
          (fun z => z.1 % 2 = r)).map Prod.snd)) ∧
      (∀ grp ∈ gs, grp.participantIds.length = 3 / 2 ∨
        grp.participantIds.length = (3 + 2 - 1) / 2) ∧
      ((gs.map (fun grp => grp.participantIds)).flatten).Perm
        (([{ id := "a", name := "A" }, { id := "b", name := "B" },
          { id := "c", name := "C" }] : List Participant).map (fun p => p.id)) ∧
      (gs.map (fun grp => grp.participantIds)).Pairwise List.Disjoint :=
  partition_striping
    [{ id := "a", name := "A" }, { id := "b", name := "B" }, { id := "c", name := "C" }] 2
    (by decide) (by decide) (by decide)

/-! ## C5: the random-comparator shuffle cannot be uniform -/

/-- C5 (refuting): no deterministic procedure driven by finitely many
`Math.random` draws — in particular `Array.sort` with the comparator
`() => 0.5 - Math.random()`, whatever sort algorithm the engine uses —
can produce a uniformly random permutation of three distinct
participants: some two of the six permutations are hit by a different
number of the equiprobable draw sequences, because `6` does not divide
`(2 ^ 53) ^ k`. -/
theorem shuffle_not_uniform (k : Nat) (algo : shuffleProcedure k) :
    ∃ s t : Fin 6,
      (Finset.univ.filter (fun x => algo x = s)).card ≠
        (Finset.univ.filter (fun x => algo x = t)).card := by
  by_contra hcon
  push_neg at hcon
  have hsum : ∑ b : Fin 6, (Finset.univ.filter (fun x => algo x = b)).card =
      Fintype.card (Fin k → Fin mathRandomValues) := by
    rw [Fintype.card]
    exact (Finset.card_eq_sum_card_fiberwise (fun x _ => Finset.mem_univ (algo x))).symm
  have hc : ∀ b : Fin 6, (Finset.univ.filter (fun x => algo x = b)).card =
      (Finset.univ.filter (fun x => algo x = (0 : Fin 6))).card := fun b => hcon b 0
  rw [Finset.sum_congr rfl (fun b _ => hc b), Finset.sum_const, Finset.card_univ,
    Fintype.card_fin, smul_eq_mul] at hsum
  have hcard : Fintype.card (Fin k → Fin mathRandomValues) = mathRandomValues ^ k := by
    rw [Fintype.card_fun, Fintype.card_fin, Fintype.card_fin]
  rw [hcard] at hsum
  have h3 : (3 : Nat) ∣ 2 ^ (53 * k) := by
    have hdvd : (3 : Nat) ∣ mathRandomValues ^ k := by
      refine Dvd.intro (2 * (Finset.univ.filter (fun x => algo x = (0 : Fin 6))).card) ?_
      omega
    rw [show mathRandomValues = 2 ^ 53 from rfl, ← pow_mul] at hdvd
    exact hdvd
  have h32 : (3 : Nat) ∣ 2 := Nat.Prime.dvd_of_dvd_pow Nat.prime_three h3
  omega

end PingPong
